import Mathlib

set_option maxHeartbeats 1000000

/-!
Shallow embedding of `BrewPiProcess.py`.

The module has two classes:

* `BrewPiProcess` — a snapshot of one running BrewPi instance (`pid`, `cfg`,
  `port`, `sock`, all initialised to `None`), with the operations `quit`,
  `kill` and `conflict`.
* `BrewPiProcesses` — a registry holding a list of `BrewPiProcess`, with the
  operations `update`, `parseProcess`, `get`, `me`, `findConflicts`,
  `quitAll` and `killAll`.

Effectful operations are embedded as explicit state passing over the stored
record list, plus a `World` value describing the outcomes the environment
produces (socket connection success, OS signal delivery result) and a trace
of observable `Event`s (connection attempts, messages sent, lines printed,
signals delivered, per-record operation invocations).  A Python exception
that escapes an operation is an `Except.error` / `Option PyError` outcome.
-/

/-- A key/value configuration as returned by the configuration loader.
The spec guarantees every loaded configuration carries at least a `port`
key, so the `port` entry is a distinguished field; the remaining entries
are an association list.  Python dict equality becomes structural
equality of this record. -/
structure Config where
  port : String
  entries : List (String × String)
  deriving DecidableEq

/-- Modelled from the spec: class `BrewPiSocket` (module `BrewPiSocket.py`)
is not under src/.  Per the spec it is a value object with fields
transport kind (`type`), `file`, `host` and `port`, and two descriptors
are equal iff all four fields match. -/
structure BrewPiSocket where
  type : String
  file : String
  host : String
  port : String
  deriving DecidableEq

/-- One entry of the OS process table as exposed by the psutil
`process_iter` call: process id (`_pid`), executable `name`, and `cmdline`
argument list. -/
structure OSProcess where
  pid : Nat
  name : String
  cmdline : List String
  deriving DecidableEq

/-- `BrewPiProcess.__init__` sets `pid`, `cfg`, `port` and `sock` to
`None`; each field is therefore an `Option`.  `cfg` holds the loaded
configuration (`util.readCfgWithDefaults` result), `port` the serial
port read from it, `sock` the socket descriptor built from it. -/
structure BrewPiProcess where
  pid : Option Nat
  cfg : Option Config
  port : Option String
  sock : Option BrewPiSocket
  deriving DecidableEq

/-- Python exceptions that can escape the embedded operations:
`AttributeError` from dereferencing a `None` socket in `conflict`, and
`psutil.error.NoSuchProcess` from signalling a pid that no longer exists
(the `except` clause in `kill` names only `psutil.error.AccessDenied`). -/
inductive PyError where
  | attributeError
  | noSuchProcess
  deriving DecidableEq

/-- Decidable equality of exception-or-result outcomes. -/
instance {e r : Type} [DecidableEq e] [DecidableEq r] : DecidableEq (Except e r) :=
  fun a b =>
    match a, b with
    | Except.ok x, Except.ok y =>
      if h : x = y then isTrue (by rw [h])
      else isFalse (fun hc => Except.noConfusion hc (fun h2 => h h2))
    | Except.error x, Except.error y =>
      if h : x = y then isTrue (by rw [h])
      else isFalse (fun hc => Except.noConfusion hc (fun h2 => h h2))
    | Except.ok _, Except.error _ => isFalse (fun hc => Except.noConfusion hc)
    | Except.error _, Except.ok _ => isFalse (fun hc => Except.noConfusion hc)

/-- The operator-visible report lines printed by `quit` and `kill`. -/
inductive PrintLine where
  | quitSent (pid : Option Nat)
  | couldNotConnect
  | quitNotSent (pid : Option Nat)
  | sigkillSent (pid : Option Nat)
  | cannotKillAccessDenied (pid : Option Nat)
  | cannotKillSameUser
  deriving DecidableEq

/-- Observable effects of the embedded operations, in program order:
socket connection attempts, data sent over a connection, connection
close, stdout/stderr report lines, SIGKILL deliveries, and the per-record
invocation of `quit` / `kill` inside the bulk loops. -/
inductive Event where
  | connectAttempt (sock : BrewPiSocket)
  | sendMsg (msg : String)
  | closeConn
  | printOut (line : PrintLine)
  | printErr (line : PrintLine)
  | sigkill (pid : Option Nat)
  | invokeQuit (pid : Option Nat)
  | invokeKill (pid : Option Nat)
  deriving DecidableEq

/-- Outcome of `psutil.Process(pid).kill()` in the surrounding OS:
success, `psutil.error.AccessDenied` (other user), or
`psutil.error.NoSuchProcess` (the pid has already exited). -/
inductive KillResult where
  | success
  | accessDenied
  | noSuchProcess
  deriving DecidableEq

/-- The behaviour of the environment during one call: what signalling a given
pid does, and whether `sock.connect()` yields a connection for a given
socket descriptor (modelled from the spec: `BrewPiSocket.connect` is not
under src/; per the spec a failed connect yields a falsy result rather
than raising). -/
structure World where
  killResult : Option Nat → KillResult
  connectOk : BrewPiSocket → Bool

/-- The static environment of a registry call: the OS process table
(`psutil.process_iter()`), the table entry of the calling process
(`psutil.Process(os.getpid())`, so `os.getpid() = myProc.pid`), the
configuration loader for a config path found on a command line, the
default configuration used when none is found (modelled from the spec:
`BrewPiUtil.readCfgWithDefaults` is not under src/ and never fails hard),
and the socket-descriptor builder (modelled from the spec:
`BrewPiSocket.BrewPiSocket(cfg)` is not under src/). -/
structure Env where
  procs : List OSProcess
  myProc : OSProcess
  loadCfg : String → Config
  defaults : Config
  mkSock : Config → BrewPiSocket

/-- Character-list prefix test (used to embed the Python substring operator). -/
def charsLead : List Char → List Char → Bool
  | [], _ => true
  | _ :: _, [] => false
  | c :: cs, d :: ds => c == d && charsLead cs ds

/-- Character-list substring test. -/
def charsSub (pat : List Char) : List Char → Bool
  | [] => pat.isEmpty
  | d :: ds => charsLead pat (d :: ds) || charsSub pat ds

/-- The Python substring test `pat in hay` on strings. -/
def pyIn (pat hay : String) : Bool := charsSub pat.data hay.data

/-- `BrewPiProcess.quit`: if `sock` is `None` the body is skipped entirely;
otherwise connect to the socket, and on success send the literal `quit`,
close the connection and report success; on a failed connect report the
failure on stdout.  Returns the trace of effects; never raises. -/
def BrewPiProcess.quit (w : World) (self : BrewPiProcess) : List Event :=
  match self.sock with
  | none => []
  | some s =>
    if w.connectOk s then
      [Event.connectAttempt s, Event.sendMsg "quit", Event.closeConn,
       Event.printOut (PrintLine.quitSent self.pid)]
    else
      [Event.connectAttempt s, Event.printOut PrintLine.couldNotConnect,
       Event.printOut (PrintLine.quitNotSent self.pid)]

/-- `BrewPiProcess.kill`: `psutil.Process(self.pid).kill()` wrapped in a
`try` whose only `except` clause is `psutil.error.AccessDenied`.  On
success SIGKILL is delivered and reported; on `AccessDenied` two lines go
to stderr; a `NoSuchProcess` (pid already exited) is not caught and
escapes as an error. -/
def BrewPiProcess.kill (w : World) (self : BrewPiProcess) : Except PyError (List Event) :=
  match w.killResult self.pid with
  | KillResult.success =>
      Except.ok [Event.sigkill self.pid, Event.printOut (PrintLine.sigkillSent self.pid)]
  | KillResult.accessDenied =>
      Except.ok [Event.printErr (PrintLine.cannotKillAccessDenied self.pid),
                 Event.printErr PrintLine.cannotKillSameUser]
  | KillResult.noSuchProcess => Except.error PyError.noSuchProcess

/-- `BrewPiProcess.conflict`: returns 0 when the pids are equal, else 1
when the configs match, else 1 when the serial ports match, else compares
the four socket-descriptor fields as lists — which dereferences
`sock.type` on both records and raises `AttributeError` when either
`sock` is `None`. -/
def BrewPiProcess.conflict (self other : BrewPiProcess) : Except PyError Bool :=
  if self.pid = other.pid then Except.ok false
  else if other.cfg = self.cfg then Except.ok true
  else if other.port = self.port then Except.ok true
  else
    match other.sock, self.sock with
    | some osock, some ssock =>
        if [osock.type, osock.file, osock.host, osock.port] =
           [ssock.type, ssock.file, ssock.host, ssock.port] then Except.ok true
        else Except.ok false
    | _, _ => Except.error PyError.attributeError

/-- The registry state: the stored record list `self.list`. -/
abbrev St := List BrewPiProcess

/-- The filter in `BrewPiProcesses.update`:
some cmdline string `s` has `brewpi.py` as a substring while the
executable name has `python` as a substring. -/
def matchesBrewPi (p : OSProcess) : Bool :=
  p.cmdline.any (fun s => pyIn "python" p.name && pyIn "brewpi.py" s)

/-- Modelled from the spec: `BrewPiUtil.readCfgWithDefaults` is not under
src/.  Per the spec the loader returns the default configuration when no
config path is given, and otherwise loads the given path (supplying
defaults itself when the file is absent — folded into `loadCfg`). -/
def readCfgWithDefaults (loadCfg : String → Config) (defaults : Config) :
    Option String → Config
  | none => defaults
  | some path => loadCfg path

/-- `BrewPiProcesses.parseProcess`: take the first command-line argument
containing `.cfg` (if any), load the configuration from it (defaults
when there is none), and build the record with the pid of the process, the
loaded configuration, its `port` entry, and the socket descriptor built
from it. -/
def BrewPiProcesses.parseProcess (env : Env) (p : OSProcess) : BrewPiProcess :=
  let cfgArg := (p.cmdline.filter (fun s => pyIn ".cfg" s)).head?
  let cfg := readCfgWithDefaults env.loadCfg env.defaults cfgArg
  ⟨some p.pid, some cfg, some cfg.port, some (env.mkSock cfg)⟩

/-- The list built by `BrewPiProcesses.update`: parse every process of the
table that passes the `matchesBrewPi` filter. -/
def BrewPiProcesses.updateList (env : Env) : List BrewPiProcess :=
  (env.procs.filter matchesBrewPi).map (BrewPiProcesses.parseProcess env)

/-- `BrewPiProcesses.update`: replace the stored list wholesale with the
newly built list and return it. -/
def BrewPiProcesses.update (env : Env) (st : St) : St × List BrewPiProcess :=
  (BrewPiProcesses.updateList env, BrewPiProcesses.updateList env)

/-- `BrewPiProcesses.get`: return the stored list without refreshing. -/
def BrewPiProcesses.get (st : St) : St × List BrewPiProcess := (st, st)

/-- `BrewPiProcesses.me`: parse the own table entry of the calling process;
the stored list is neither read nor written. -/
def BrewPiProcesses.me (env : Env) (st : St) : St × BrewPiProcess :=
  (st, BrewPiProcesses.parseProcess env env.myProc)

/-- The loop of `BrewPiProcesses.findConflicts`: skip stored records with
the pid of the candidate; return 1 at the first stored record the candidate
conflicts with; propagate an exception raised by `conflict`. -/
def BrewPiProcesses.findConflictsLoop (proc : BrewPiProcess) :
    List BrewPiProcess → Except PyError Bool
  | [] => Except.ok false
  | p :: rest =>
    if proc.pid = p.pid then BrewPiProcesses.findConflictsLoop proc rest
    else
      match BrewPiProcess.conflict proc p with
      | Except.error e => Except.error e
      | Except.ok true => Except.ok true
      | Except.ok false => BrewPiProcesses.findConflictsLoop proc rest

/-- `BrewPiProcesses.findConflicts`: scan the currently stored list (no
refresh) for a conflicting record. -/
def BrewPiProcesses.findConflicts (st : St) (proc : BrewPiProcess) :
    St × Except PyError Bool :=
  (st, BrewPiProcesses.findConflictsLoop proc st)

/-- The loop of `BrewPiProcesses.quitAll`: skip the record whose pid is
that of the caller, otherwise invoke `quit` on it and continue. -/
def BrewPiProcesses.quitAllLoop (w : World) (myPid : Nat) :
    List BrewPiProcess → List Event
  | [] => []
  | p :: rest =>
    if p.pid = some myPid then BrewPiProcesses.quitAllLoop w myPid rest
    else
      ((Event.invokeQuit p.pid :: BrewPiProcess.quit w p) ++
        BrewPiProcesses.quitAllLoop w myPid rest)

/-- `BrewPiProcesses.quitAll`: refresh the list, then run the quit loop
over the fresh list. -/
def BrewPiProcesses.quitAll (w : World) (env : Env) (st : St) : St × List Event :=
  (BrewPiProcesses.updateList env,
   BrewPiProcesses.quitAllLoop w env.myProc.pid (BrewPiProcesses.updateList env))

/-- The loop of `BrewPiProcesses.killAll`: skip the record whose pid is
that of the caller, otherwise invoke `kill` on it; an exception escaping
`kill` aborts the loop, keeping the trace produced so far. -/
def BrewPiProcesses.killAllLoop (w : World) (myPid : Nat) :
    List BrewPiProcess → List Event × Option PyError
  | [] => ([], none)
  | p :: rest =>
    if p.pid = some myPid then BrewPiProcesses.killAllLoop w myPid rest
    else
      match BrewPiProcess.kill w p with
      | Except.error e => ([Event.invokeKill p.pid], some e)
      | Except.ok evs =>
        let res := BrewPiProcesses.killAllLoop w myPid rest
        (Event.invokeKill p.pid :: (evs ++ res.1), res.2)

/-- `BrewPiProcesses.killAll`: refresh the list, then run the kill loop
over the fresh list; the second component of the result is the exception
that escaped, if any. -/
def BrewPiProcesses.killAll (w : World) (env : Env) (st : St) :
    St × (List Event × Option PyError) :=
  (BrewPiProcesses.updateList env,
   BrewPiProcesses.killAllLoop w env.myProc.pid (BrewPiProcesses.updateList env))

/-- The pids on which the quit operation was invoked in a trace. -/
def invokedQuitPids (evs : List Event) : List (Option Nat) :=
  evs.filterMap (fun e =>
    match e with
    | Event.invokeQuit pid => some pid
    | _ => none)

/-- The pids on which the kill operation was invoked in a trace. -/
def invokedKillPids (evs : List Event) : List (Option Nat) :=
  evs.filterMap (fun e =>
    match e with
    | Event.invokeKill pid => some pid
    | _ => none)

/-- The pids of the freshly enumerated records other than the own pid of
the caller — the records a bulk operation is meant to target. -/
def nonSelfPids (env : Env) : List (Option Nat) :=
  ((BrewPiProcesses.updateList env).filter
    (fun p => decide (¬ p.pid = some env.myProc.pid))).map (fun p => p.pid)

/-! Concrete instances used to exercise the definitions. -/

/-- Default configuration of the concrete environment. -/
def cfgDefault : Config := ⟨"/dev/default", []⟩

/-- Configuration loaded from `a.cfg`. -/
def cfgA : Config := ⟨"/dev/ttyUSB0", [("cfgfile", "a.cfg")]⟩

/-- Configuration loaded from `b.cfg`. -/
def cfgB : Config := ⟨"/dev/ttyUSB1", [("cfgfile", "b.cfg")]⟩

/-- Concrete configuration loader. -/
def loadCfg0 : String → Config := fun path => if path = "a.cfg" then cfgA else cfgB

/-- A BrewPi process launched with `a.cfg`. -/
def procA : OSProcess := ⟨100, "python", ["python", "brewpi.py", "a.cfg"]⟩

/-- A BrewPi process launched with `b.cfg`. -/
def procB : OSProcess := ⟨200, "python", ["python", "brewpi.py", "b.cfg"]⟩

/-- A BrewPi process launched with no config argument on its command line. -/
def procNoCfg : OSProcess := ⟨300, "python", ["python", "brewpi.py"]⟩

/-- The own table entry of the calling process (pid 1, not a BrewPi match). -/
def procMe : OSProcess := ⟨1, "python", ["python", "other.py"]⟩

/-- Concrete environment: two matching BrewPi processes, caller pid 1. -/
def env0 : Env := ⟨[procA, procB], procMe, loadCfg0, cfgDefault, fun c => ⟨"unix", c.port, "", ""⟩⟩

/-- A world in which signalling pid 100 finds the pid already exited. -/
def w0 : World :=
  ⟨fun pid => if pid = some 100 then KillResult.noSuchProcess else KillResult.success,
   fun _ => true⟩

/-- A world in which signalling pid 200 is denied for lack of permission
and every socket connection attempt fails. -/
def w1 : World :=
  ⟨fun pid => if pid = some 200 then KillResult.accessDenied else KillResult.success,
   fun _ => false⟩

/-- A concrete socket descriptor. -/
def sock1 : BrewPiSocket := ⟨"unix", "/tmp/a", "h", "1"⟩

/-- A fully populated record (pid 1, config `cfgA`, port `/dev/ttyUSB0`). -/
def recA : BrewPiProcess := ⟨some 1, some cfgA, some "/dev/ttyUSB0", some sock1⟩

/-- A record sharing the serial port of `recA` but nothing else. -/
def recB : BrewPiProcess := ⟨some 2, some cfgB, some "/dev/ttyUSB0", some ⟨"net", "", "host", "2"⟩⟩

/-- A freshly constructed record that never got a socket descriptor,
differing from `recA` in pid, config and port. -/
def recC : BrewPiProcess := ⟨some 3, some cfgB, some "/dev/ttyACM0", none⟩

/-- Another socketless record, differing from `recA` everywhere. -/
def recD : BrewPiProcess := ⟨some 5, some cfgDefault, some "/dev/x", none⟩

/-- A candidate record without a socket descriptor, sharing `cfgB`. -/
def cand4 : BrewPiProcess := ⟨some 99, some cfgB, some "/dev/c4", none⟩

/-- A stored record that conflicts with `cand4` in nothing comparable
without sockets. -/
def e4 : BrewPiProcess := ⟨some 10, some cfgA, some "/dev/e4", some sock1⟩

/-- A stored record sharing the config of `cand4`. -/
def c4rec : BrewPiProcess := ⟨some 11, some cfgB, some "/dev/c44", some ⟨"net", "", "h", "9"⟩⟩

/-- A record with no socket descriptor (for the quit no-op claim). -/
def bpNoSock : BrewPiProcess := ⟨some 7, none, none, none⟩

/-- A record with a socket descriptor (for the quit success claim). -/
def bpWithSock : BrewPiProcess := ⟨some 8, some cfgA, some "/dev/ttyUSB0", some sock1⟩

/-- A world that accepts every socket connection. -/
def wConnect : World := ⟨fun _ => KillResult.success, fun _ => true⟩

/-! Theorems. -/

/-- Claim C8: for every record `a`, `a.conflictsWith(a)` is false — the
pid-equality short circuit fires before any field is dereferenced, so a
record never conflicts with itself. -/
theorem conflict_self_false (a : BrewPiProcess) :
    BrewPiProcess.conflict a a = Except.ok false := by
  simp [BrewPiProcess.conflict]

/-- Claim C7: `me()` leaves the stored record list unchanged, its result
is the freshly parsed record of the own table entry of the calling
process, its pid is the own pid of the calling process, and the result does not depend
on the stored record list. -/
theorem me_spec (env : Env) (st st2 : St) :
    (BrewPiProcesses.me env st).1 = st
    ∧ ((BrewPiProcesses.me env st).2).pid = some env.myProc.pid
    ∧ (BrewPiProcesses.me env st).2 = (BrewPiProcesses.me env st2).2
    ∧ (BrewPiProcesses.me env st).2 = BrewPiProcesses.parseProcess env env.myProc :=
  ⟨rfl, rfl, rfl, rfl⟩

/-- Claim C5: `update()` builds the new list from exactly the processes
that pass the BrewPi command-line filter (a record is in the new list iff
it is the parse of some matching table entry), the stored list is
replaced wholesale with the newly built list independently of the old
state, the same new list is returned, and a subsequent `get()` call
returns it. -/
theorem update_spec (env : Env) (st st2 : St) :
    (∀ bp, bp ∈ (BrewPiProcesses.update env st).2 ↔
      ∃ p, p ∈ env.procs ∧ matchesBrewPi p = true ∧ bp = BrewPiProcesses.parseProcess env p)
    ∧ (BrewPiProcesses.update env st).1 = (BrewPiProcesses.update env st).2
    ∧ (BrewPiProcesses.update env st).1 = (BrewPiProcesses.update env st2).1
    ∧ BrewPiProcesses.get (BrewPiProcesses.update env st).1 =
        ((BrewPiProcesses.update env st).1, (BrewPiProcesses.update env st).2) := by
  refine ⟨?_, rfl, rfl, rfl⟩
  intro bp
  simp only [BrewPiProcesses.update, BrewPiProcesses.updateList, List.mem_map,
    List.mem_filter]
  constructor
  · rintro ⟨p, ⟨hmem, hmatch⟩, hparse⟩
    exact ⟨p, hmem, hmatch, hparse.symm⟩
  · rintro ⟨p, hmem, hmatch, hparse⟩
    exact ⟨p, ⟨hmem, hmatch⟩, hparse.symm⟩

/-- Claim C6: when no command-line argument of a matched process contains
the config-file marker `.cfg`, parsing succeeds and the record is built
from the default configuration: its `cfg` is the default configuration,
its `port` is the port value of the default configuration, and its socket
descriptor is built from the default configuration. -/
theorem parseProcess_defaults (env : Env) (p : OSProcess)
    (h : ∀ s ∈ p.cmdline, pyIn ".cfg" s = false) :
    BrewPiProcesses.parseProcess env p =
      ⟨some p.pid, some env.defaults, some env.defaults.port,
       some (env.mkSock env.defaults)⟩ := by
  have hf : p.cmdline.filter (fun s => pyIn ".cfg" s) = [] := by
    rw [List.filter_eq_nil_iff]
    intro a ha
    simp [h a ha]
  simp [BrewPiProcesses.parseProcess, hf, readCfgWithDefaults]

/-- Witness for claim C6 at the concrete process `procNoCfg`, whose
command line `["python", "brewpi.py"]` carries no `.cfg` argument. -/
theorem parseProcess_defaults_witness :
    BrewPiProcesses.parseProcess env0 procNoCfg =
      ⟨some procNoCfg.pid, some env0.defaults, some env0.defaults.port,
       some (env0.mkSock env0.defaults)⟩ :=
  parseProcess_defaults env0 procNoCfg (by decide)

/-- Claim C1 (amended): for every pair of records that both carry a
socket descriptor, `conflictsWith` returns false when the pids are
equal, and otherwise returns true iff the configs are equal, or the
ports are equal, or all four socket-descriptor fields are pairwise
equal (and returns false iff none of these holds) — in particular it
returns a boolean and raises no error.  Without the socket-descriptor
precondition the unqualified claim is false, see
`conflict_missing_sock_not_boolean`. -/
theorem conflict_spec_with_socks (a b : BrewPiProcess) (sa sb : BrewPiSocket)
    (ha : a.sock = some sa) (hb : b.sock = some sb) :
    (a.pid = b.pid → BrewPiProcess.conflict a b = Except.ok false)
    ∧ (¬ a.pid = b.pid →
        ((BrewPiProcess.conflict a b = Except.ok true) ↔
          (a.cfg = b.cfg ∨ a.port = b.port ∨
            (sa.type = sb.type ∧ sa.file = sb.file ∧ sa.host = sb.host ∧ sa.port = sb.port))))
    ∧ (¬ a.pid = b.pid →
        ((BrewPiProcess.conflict a b = Except.ok false) ↔
          ¬ (a.cfg = b.cfg ∨ a.port = b.port ∨
            (sa.type = sb.type ∧ sa.file = sb.file ∧ sa.host = sb.host ∧ sa.port = sb.port)))) := by
  unfold BrewPiProcess.conflict
  rw [ha, hb]
  by_cases h1 : a.pid = b.pid <;>
    by_cases h2 : b.cfg = a.cfg <;>
      by_cases h3 : b.port = a.port <;>
        by_cases h4 : [sb.type, sb.file, sb.host, sb.port] =
          [sa.type, sa.file, sa.host, sa.port] <;>
  simp_all [eq_comm]
  have hc4 : ¬ (sa.type = sb.type ∧ sa.file = sb.file ∧ sa.host = sb.host ∧ sa.port = sb.port) :=
    fun hc => h4 hc.1 hc.2.1 hc.2.2.1 hc.2.2.2
  simp [hc4]

/-- Claim C9: for two records with distinct pids, unequal configs and
unequal ports, if either record lacks a socket descriptor then
`conflict` raises an attribute-access error instead of returning a
boolean — the predicate is total only when both socket descriptors are
present. -/
theorem conflict_missing_sock_error (a b : BrewPiProcess)
    (h1 : ¬ a.pid = b.pid) (h2 : ¬ a.cfg = b.cfg) (h3 : ¬ a.port = b.port)
    (h4 : a.sock = none ∨ b.sock = none) :
    BrewPiProcess.conflict a b = Except.error PyError.attributeError := by
  unfold BrewPiProcess.conflict
  rw [if_neg h1, if_neg (fun h => h2 h.symm), if_neg (fun h => h3 h.symm)]
  rcases h4 with h | h <;> rw [h]
  cases b.sock <;> rfl

/-- Witness for claim C9 at the concrete records `recD` (no socket
descriptor) and `recA`. -/
theorem conflict_missing_sock_error_witness :
    (¬ recD.pid = recA.pid) ∧ (¬ recD.cfg = recA.cfg) ∧ (¬ recD.port = recA.port)
    ∧ recD.sock = none
    ∧ BrewPiProcess.conflict recD recA = Except.error PyError.attributeError :=
  ⟨by decide, by decide, by decide, rfl,
   conflict_missing_sock_error recD recA (by decide) (by decide) (by decide) (Or.inl rfl)⟩

/-- Counterexample to claim C1 as stated: at the concrete pair `recA`,
`recC` — distinct pids, unequal configs, unequal ports, and `recC`
without a socket descriptor — `conflictsWith` raises an attribute error
instead of returning false, so the operation is not error-free on every
pair of records. -/
theorem conflict_missing_sock_not_boolean :
    recA.pid ≠ recC.pid ∧ recA.cfg ≠ recC.cfg ∧ recA.port ≠ recC.port
    ∧ BrewPiProcess.conflict recA recC = Except.error PyError.attributeError := by
  decide

/-- Witness for claim C1 (amended) at the concrete records `recA` and
`recB`, which share a serial port: the conflict predicate returns
true. -/
theorem conflict_spec_with_socks_witness :
    recA.sock = some sock1 ∧ recA.port = recB.port
    ∧ BrewPiProcess.conflict recA recB = Except.ok true :=
  ⟨rfl, rfl,
   ((conflict_spec_with_socks recA recB sock1 ⟨"net", "", "host", "2"⟩ rfl rfl).2.1
     (by decide)).mpr (Or.inr (Or.inl rfl))⟩

/-- Claim C10: `quit()` on a record without a socket descriptor is a
silent no-op — no connection attempt, nothing sent, nothing reported,
no error; when a socket descriptor is present a connection is
attempted, and on success exactly the literal command `quit` is sent
and the connection is closed, while on failure the failure is
reported. -/
theorem quit_spec (w : World) (bp : BrewPiProcess) :
    (bp.sock = none → BrewPiProcess.quit w bp = [])
    ∧ (∀ s, bp.sock = some s → w.connectOk s = true →
        BrewPiProcess.quit w bp =
          [Event.connectAttempt s, Event.sendMsg "quit", Event.closeConn,
           Event.printOut (PrintLine.quitSent bp.pid)])
    ∧ (∀ s, bp.sock = some s → w.connectOk s = false →
        BrewPiProcess.quit w bp =
          [Event.connectAttempt s, Event.printOut PrintLine.couldNotConnect,
           Event.printOut (PrintLine.quitNotSent bp.pid)]) := by
  refine ⟨fun h => ?_, fun s hs hc => ?_, fun s hs hc => ?_⟩ <;>
    unfold BrewPiProcess.quit
  · rw [h]
  · rw [hs]; simp [hc]
  · rw [hs]; simp [hc]

/-- Witness for claim C10 at the concrete records `bpNoSock` (silent
no-op) and `bpWithSock` (successful connect: the literal `quit` is sent
and the connection closed). -/
theorem quit_spec_witness :
    bpNoSock.sock = none ∧ BrewPiProcess.quit w1 bpNoSock = []
    ∧ bpWithSock.sock = some sock1 ∧ wConnect.connectOk sock1 = true
    ∧ BrewPiProcess.quit wConnect bpWithSock =
        [Event.connectAttempt sock1, Event.sendMsg "quit", Event.closeConn,
         Event.printOut (PrintLine.quitSent bpWithSock.pid)] :=
  ⟨rfl, (quit_spec w1 bpNoSock).1 rfl, rfl, rfl,
   (quit_spec wConnect bpWithSock).2.1 sock1 rfl rfl⟩

/-- Helper: when both records carry a socket descriptor the conflict
predicate always returns a boolean. -/
theorem conflict_isOk (a b : BrewPiProcess) (sa sb : BrewPiSocket)
    (ha : a.sock = some sa) (hb : b.sock = some sb) :
    BrewPiProcess.conflict a b = Except.ok true
    ∨ BrewPiProcess.conflict a b = Except.ok false := by
  unfold BrewPiProcess.conflict
  rw [ha, hb]
  by_cases h1 : a.pid = b.pid <;>
    by_cases h2 : b.cfg = a.cfg <;>
      by_cases h3 : b.port = a.port <;>
        by_cases h4 : [sb.type, sb.file, sb.host, sb.port] =
          [sa.type, sa.file, sa.host, sa.port] <;>
  simp [h1, h2, h3, h4]

/-- Helper: the `findConflicts` scan over a list of stored records that
all carry socket descriptors returns true iff some stored record with a
different pid conflicts with the candidate. -/
theorem findConflictsLoop_spec (proc : BrewPiProcess) (sp : BrewPiSocket)
    (hp : proc.sock = some sp) :
    ∀ l : List BrewPiProcess, (∀ p ∈ l, p.sock.isSome = true) →
      (BrewPiProcesses.findConflictsLoop proc l = Except.ok true ↔
        ∃ p ∈ l, ¬ p.pid = proc.pid ∧ BrewPiProcess.conflict proc p = Except.ok true) := by
  intro l
  induction l with
  | nil => intro _; simp [BrewPiProcesses.findConflictsLoop]
  | cons p rest ih =>
    intro hl
    have hps : p.sock.isSome = true := hl p (List.mem_cons_self p rest)
    obtain ⟨sq, hq⟩ := Option.isSome_iff_exists.mp hps
    have hrest : ∀ q ∈ rest, q.sock.isSome = true :=
      fun q hq2 => hl q (List.mem_cons_of_mem p hq2)
    by_cases hpid : proc.pid = p.pid
    · have hred : BrewPiProcesses.findConflictsLoop proc (p :: rest) =
          BrewPiProcesses.findConflictsLoop proc rest := by
        simp [BrewPiProcesses.findConflictsLoop, hpid]
      rw [hred]
      constructor
      · intro h
        rcases (ih hrest).mp h with ⟨q, hqmem, hqpid, hqc⟩
        exact ⟨q, List.mem_cons_of_mem p hqmem, hqpid, hqc⟩
      · rintro ⟨q, hqmem, hqpid, hqc⟩
        rcases List.mem_cons.mp hqmem with rfl | hqmem2
        · exact absurd hpid.symm hqpid
        · exact (ih hrest).mpr ⟨q, hqmem2, hqpid, hqc⟩
    · rcases conflict_isOk proc p sp sq hp hq with hc | hc
      · have hred : BrewPiProcesses.findConflictsLoop proc (p :: rest) = Except.ok true := by
          simp [BrewPiProcesses.findConflictsLoop, hpid, hc]
        rw [hred]
        constructor
        · intro _
          exact ⟨p, List.mem_cons_self p rest, fun h => hpid h.symm, hc⟩
        · intro _; rfl
      · have hred : BrewPiProcesses.findConflictsLoop proc (p :: rest) =
            BrewPiProcesses.findConflictsLoop proc rest := by
          simp [BrewPiProcesses.findConflictsLoop, hpid, hc]
        rw [hred]
        constructor
        · intro h
          rcases (ih hrest).mp h with ⟨q, hqmem, hqpid, hqc⟩
          exact ⟨q, List.mem_cons_of_mem p hqmem, hqpid, hqc⟩
        · rintro ⟨q, hqmem, hqpid, hqc⟩
          rcases List.mem_cons.mp hqmem with rfl | hqmem2
          · exact absurd hqc (by simp [hc])
          · exact (ih hrest).mpr ⟨q, hqmem2, hqpid, hqc⟩

/-- Claim C4 (amended): `findConflicts` never changes the stored record
list, and — provided the candidate and every stored record carry a
socket descriptor — it returns true iff some stored record `p` with
`p.pid` different from the pid of the candidate conflicts with the
candidate.  Without the socket-descriptor precondition the unqualified
claim is false, see `findConflicts_error_misses_conflict`. -/
theorem findConflicts_spec (st : St) (proc : BrewPiProcess) (sp : BrewPiSocket)
    (hp : proc.sock = some sp) (hl : ∀ p ∈ st, p.sock.isSome = true) :
    (∀ st2 pr, (BrewPiProcesses.findConflicts st2 pr).1 = st2)
    ∧ ((BrewPiProcesses.findConflicts st proc).2 = Except.ok true ↔
        ∃ p ∈ st, ¬ p.pid = proc.pid ∧ BrewPiProcess.conflict proc p = Except.ok true) :=
  ⟨fun _ _ => rfl, findConflictsLoop_spec proc sp hp st hl⟩

/-- Witness for claim C4 (amended) at the stored list `[recB]` and the
candidate `recA`. -/
theorem findConflicts_spec_witness :
    recA.sock = some sock1 ∧ (∀ p ∈ [recB], p.sock.isSome = true)
    ∧ (BrewPiProcesses.findConflicts [recB] recA).1 = [recB]
    ∧ ((BrewPiProcesses.findConflicts [recB] recA).2 = Except.ok true ↔
        ∃ p ∈ [recB], ¬ p.pid = recA.pid ∧ BrewPiProcess.conflict recA p = Except.ok true) :=
  ⟨rfl, by decide,
   (findConflicts_spec [recB] recA sock1 rfl (by decide)).1 [recB] recA,
   (findConflicts_spec [recB] recA sock1 rfl (by decide)).2⟩

/-- Counterexample to claim C4 as stated: with stored list
`[e4, c4rec]` and the socketless candidate `cand4`, the stored record
`c4rec` has a different pid and genuinely conflicts with the candidate
(shared config), yet `findConflicts` does not return true — the scan
aborts with an attribute error on the earlier record `e4`. -/
theorem findConflicts_error_misses_conflict :
    (BrewPiProcesses.findConflicts [e4, c4rec] cand4).2 = Except.error PyError.attributeError
    ∧ c4rec ∈ [e4, c4rec] ∧ ¬ c4rec.pid = cand4.pid
    ∧ BrewPiProcess.conflict cand4 c4rec = Except.ok true := by
  decide

/-- Helper: quit invocations distribute over trace concatenation. -/
theorem invokedQuitPids_append (l1 l2 : List Event) :
    invokedQuitPids (l1 ++ l2) = invokedQuitPids l1 ++ invokedQuitPids l2 := by
  simp [invokedQuitPids]

/-- Helper: kill invocations distribute over trace concatenation. -/
theorem invokedKillPids_append (l1 l2 : List Event) :
    invokedKillPids (l1 ++ l2) = invokedKillPids l1 ++ invokedKillPids l2 := by
  simp [invokedKillPids]

/-- Helper: the trace of a single `quit` call contains no quit
invocation marker. -/
theorem invokedQuitPids_quit (w : World) (p : BrewPiProcess) :
    invokedQuitPids (BrewPiProcess.quit w p) = [] := by
  unfold BrewPiProcess.quit
  cases p.sock with
  | none => rfl
  | some s => cases h : w.connectOk s <;> simp [h, invokedQuitPids]

/-- Helper: the trace of a single successful `kill` call contains no
kill invocation marker. -/
theorem invokedKillPids_kill (w : World) (p : BrewPiProcess) (evs : List Event)
    (hk : BrewPiProcess.kill w p = Except.ok evs) : invokedKillPids evs = [] := by
  unfold BrewPiProcess.kill at hk
  cases h : w.killResult p.pid <;> rw [h] at hk <;> simp at hk <;>
    rw [← hk] <;> simp [invokedKillPids]

/-- Helper: the quit loop invokes `quit` exactly on the records whose
pid differs from the pid of the caller, in list order. -/
theorem quitAllLoop_pids (w : World) (m : Nat) :
    ∀ l : List BrewPiProcess,
      invokedQuitPids (BrewPiProcesses.quitAllLoop w m l) =
        (l.filter (fun p => decide (¬ p.pid = some m))).map (fun p => p.pid) := by
  intro l
  induction l with
  | nil => rfl
  | cons p rest ih =>
    by_cases h : p.pid = some m
    · simp [BrewPiProcesses.quitAllLoop, h, ih]
    · have hred : BrewPiProcesses.quitAllLoop w m (p :: rest) =
          (Event.invokeQuit p.pid :: BrewPiProcess.quit w p) ++
            BrewPiProcesses.quitAllLoop w m rest := by
        simp [BrewPiProcesses.quitAllLoop, h]
      have hcons : invokedQuitPids (Event.invokeQuit p.pid :: BrewPiProcess.quit w p) =
          p.pid :: invokedQuitPids (BrewPiProcess.quit w p) := by
        simp [invokedQuitPids]
      rw [hred, invokedQuitPids_append, hcons, invokedQuitPids_quit, ih]
      simp [List.filter_cons, h]

/-- Helper: when no targeted record has a vanished pid, the kill loop
finishes without an escaping exception and invokes `kill` exactly on
the records whose pid differs from the pid of the caller. -/
theorem killAllLoop_ok (w : World) (m : Nat) :
    ∀ l : List BrewPiProcess,
      (∀ p ∈ l, ¬ p.pid = some m → ¬ w.killResult p.pid = KillResult.noSuchProcess) →
      (BrewPiProcesses.killAllLoop w m l).2 = none
      ∧ invokedKillPids (BrewPiProcesses.killAllLoop w m l).1 =
          (l.filter (fun p => decide (¬ p.pid = some m))).map (fun p => p.pid) := by
  intro l
  induction l with
  | nil => intro _; exact ⟨rfl, rfl⟩
  | cons p rest ih =>
    intro hk
    obtain ⟨ih1, ih2⟩ := ih (fun q hq hq2 => hk q (List.mem_cons_of_mem p hq) hq2)
    by_cases h : p.pid = some m
    · have hred : BrewPiProcesses.killAllLoop w m (p :: rest) =
          BrewPiProcesses.killAllLoop w m rest := by
        simp [BrewPiProcesses.killAllLoop, h]
      rw [hred]
      refine ⟨ih1, ?_⟩
      rw [ih2]
      simp [List.filter_cons, h]
    · cases hkr : w.killResult p.pid with
      | noSuchProcess => exact absurd hkr (hk p (List.mem_cons_self p rest) h)
      | success =>
        have hkill : BrewPiProcess.kill w p =
            Except.ok [Event.sigkill p.pid, Event.printOut (PrintLine.sigkillSent p.pid)] := by
          unfold BrewPiProcess.kill; rw [hkr]
        have hred : BrewPiProcesses.killAllLoop w m (p :: rest) =
            (Event.invokeKill p.pid ::
              ([Event.sigkill p.pid, Event.printOut (PrintLine.sigkillSent p.pid)] ++
                (BrewPiProcesses.killAllLoop w m rest).1),
             (BrewPiProcesses.killAllLoop w m rest).2) := by
          simp [BrewPiProcesses.killAllLoop, h, hkill]
        rw [hred]
        refine ⟨ih1, ?_⟩
        have hcons : invokedKillPids (Event.invokeKill p.pid ::
            ([Event.sigkill p.pid, Event.printOut (PrintLine.sigkillSent p.pid)] ++
              (BrewPiProcesses.killAllLoop w m rest).1)) =
            p.pid :: invokedKillPids
              ([Event.sigkill p.pid, Event.printOut (PrintLine.sigkillSent p.pid)] ++
                (BrewPiProcesses.killAllLoop w m rest).1) := by
          simp [invokedKillPids]
        rw [hcons, invokedKillPids_append]
        have hevs : invokedKillPids
            [Event.sigkill p.pid, Event.printOut (PrintLine.sigkillSent p.pid)] = [] := by
          simp [invokedKillPids]
        rw [hevs, ih2]
        simp [List.filter_cons, h]
      | accessDenied =>
        have hkill : BrewPiProcess.kill w p =
            Except.ok [Event.printErr (PrintLine.cannotKillAccessDenied p.pid),
                       Event.printErr PrintLine.cannotKillSameUser] := by
          unfold BrewPiProcess.kill; rw [hkr]
        have hred : BrewPiProcesses.killAllLoop w m (p :: rest) =
            (Event.invokeKill p.pid ::
              ([Event.printErr (PrintLine.cannotKillAccessDenied p.pid),
                Event.printErr PrintLine.cannotKillSameUser] ++
                (BrewPiProcesses.killAllLoop w m rest).1),
             (BrewPiProcesses.killAllLoop w m rest).2) := by
          simp [BrewPiProcesses.killAllLoop, h, hkill]
        rw [hred]
        refine ⟨ih1, ?_⟩
        have hcons : invokedKillPids (Event.invokeKill p.pid ::
            ([Event.printErr (PrintLine.cannotKillAccessDenied p.pid),
              Event.printErr PrintLine.cannotKillSameUser] ++
              (BrewPiProcesses.killAllLoop w m rest).1)) =
            p.pid :: invokedKillPids
              ([Event.printErr (PrintLine.cannotKillAccessDenied p.pid),
                Event.printErr PrintLine.cannotKillSameUser] ++
                (BrewPiProcesses.killAllLoop w m rest).1) := by
          simp [invokedKillPids]
        rw [hcons, invokedKillPids_append]
        have hevs : invokedKillPids
            [Event.printErr (PrintLine.cannotKillAccessDenied p.pid),
             Event.printErr PrintLine.cannotKillSameUser] = [] := by
          simp [invokedKillPids]
        rw [hevs, ih2]
        simp [List.filter_cons, h]

/-- Helper: unfolding of the kill loop on a record with the pid of the
caller. -/
theorem killAllLoop_cons_skip (w : World) (m : Nat) (p : BrewPiProcess)
    (rest : List BrewPiProcess) (h : p.pid = some m) :
    BrewPiProcesses.killAllLoop w m (p :: rest) = BrewPiProcesses.killAllLoop w m rest := by
  simp [BrewPiProcesses.killAllLoop, h]

/-- Helper: unfolding of the kill loop on a record whose kill call
returns normally. -/
theorem killAllLoop_cons_ok (w : World) (m : Nat) (p : BrewPiProcess)
    (rest : List BrewPiProcess) (evs : List Event) (h : ¬ p.pid = some m)
    (hk : BrewPiProcess.kill w p = Except.ok evs) :
    BrewPiProcesses.killAllLoop w m (p :: rest) =
      (Event.invokeKill p.pid :: (evs ++ (BrewPiProcesses.killAllLoop w m rest).1),
       (BrewPiProcesses.killAllLoop w m rest).2) := by
  simp [BrewPiProcesses.killAllLoop, h, hk]

/-- Helper: unfolding of the kill loop on a record whose kill call
raises — the loop aborts, keeping the trace produced so far. -/
theorem killAllLoop_cons_err (w : World) (m : Nat) (p : BrewPiProcess)
    (rest : List BrewPiProcess) (e : PyError) (h : ¬ p.pid = some m)
    (hk : BrewPiProcess.kill w p = Except.error e) :
    BrewPiProcesses.killAllLoop w m (p :: rest) = ([Event.invokeKill p.pid], some e) := by
  simp [BrewPiProcesses.killAllLoop, h, hk]

/-- Helper: the pid of the caller is never among the non-self pids. -/
theorem not_mem_nonSelf (m : Nat) (l : List BrewPiProcess) :
    ¬ some m ∈ (l.filter (fun p => decide (¬ p.pid = some m))).map (fun p => p.pid) := by
  intro hmem
  rcases List.mem_map.mp hmem with ⟨p, hpmem, hpid⟩
  have hp := (List.mem_filter.mp hpmem).2
  simp at hp
  exact hp hpid

/-- Helper: the quit loop never invokes `quit` on the pid of the
caller. -/
theorem quitAllLoop_no_self (w : World) (m : Nat) (l : List BrewPiProcess) :
    ¬ some m ∈ invokedQuitPids (BrewPiProcesses.quitAllLoop w m l) := by
  rw [quitAllLoop_pids]
  exact not_mem_nonSelf m l

/-- Helper: every kill invocation of the kill loop — aborted or not —
targets the pid of some listed record other than the caller. -/
theorem killAllLoop_pids_sub (w : World) (m : Nat) :
    ∀ (l : List BrewPiProcess) (x : Option Nat),
      x ∈ invokedKillPids (BrewPiProcesses.killAllLoop w m l).1 →
      ∃ p ∈ l, ¬ p.pid = some m ∧ x = p.pid := by
  intro l
  induction l with
  | nil => intro x hx; simp [BrewPiProcesses.killAllLoop, invokedKillPids] at hx
  | cons p rest ih =>
    intro x hx
    by_cases h : p.pid = some m
    · rw [killAllLoop_cons_skip w m p rest h] at hx
      rcases ih x hx with ⟨q, hq, hq2, hq3⟩
      exact ⟨q, List.mem_cons_of_mem p hq, hq2, hq3⟩
    · cases hke : BrewPiProcess.kill w p with
      | error e =>
        rw [killAllLoop_cons_err w m p rest e h hke] at hx
        simp [invokedKillPids] at hx
        exact ⟨p, List.mem_cons_self p rest, h, hx⟩
      | ok evs =>
        rw [killAllLoop_cons_ok w m p rest evs h hke] at hx
        have hcons : invokedKillPids
            (Event.invokeKill p.pid :: (evs ++ (BrewPiProcesses.killAllLoop w m rest).1)) =
            p.pid :: (invokedKillPids evs ++
              invokedKillPids (BrewPiProcesses.killAllLoop w m rest).1) := by
          simp [invokedKillPids]
        rw [hcons, invokedKillPids_kill w p evs hke] at hx
        simp at hx
        rcases hx with rfl | hx2
        · exact ⟨p, List.mem_cons_self p rest, h, rfl⟩
        · rcases ih x hx2 with ⟨q, hq, hq2, hq3⟩
          exact ⟨q, List.mem_cons_of_mem p hq, hq2, hq3⟩

/-- Helper: the kill loop never invokes `kill` on the pid of the
caller, even when it aborts. -/
theorem killAllLoop_no_self (w : World) (m : Nat) (l : List BrewPiProcess) :
    ¬ some m ∈ invokedKillPids (BrewPiProcesses.killAllLoop w m l).1 := by
  intro hmem
  rcases killAllLoop_pids_sub w m l (some m) hmem with ⟨p, _, hp2, hp3⟩
  exact hp2 hp3.symm

/-- Helper: a connection failure of a targeted record is reported on
stdout by the quit loop. -/
theorem quitAllLoop_reports (w : World) (m : Nat) (p : BrewPiProcess) :
    ∀ l : List BrewPiProcess, p ∈ l → ¬ p.pid = some m →
      ∀ s, p.sock = some s → w.connectOk s = false →
      Event.printOut (PrintLine.quitNotSent p.pid) ∈ BrewPiProcesses.quitAllLoop w m l := by
  intro l
  induction l with
  | nil => intro hmem; cases hmem
  | cons q rest ih =>
    intro hmem hne s hs hc
    rcases List.mem_cons.mp hmem with rfl | hmem2
    · have hred : BrewPiProcesses.quitAllLoop w m (p :: rest) =
          (Event.invokeQuit p.pid :: BrewPiProcess.quit w p) ++
            BrewPiProcesses.quitAllLoop w m rest := by
        simp [BrewPiProcesses.quitAllLoop, hne]
      have hq : BrewPiProcess.quit w p =
          [Event.connectAttempt s, Event.printOut PrintLine.couldNotConnect,
           Event.printOut (PrintLine.quitNotSent p.pid)] := by
        unfold BrewPiProcess.quit; rw [hs]; simp [hc]
      rw [hred, hq]
      simp
    · by_cases hq2 : q.pid = some m
      · have hred : BrewPiProcesses.quitAllLoop w m (q :: rest) =
            BrewPiProcesses.quitAllLoop w m rest := by
          simp [BrewPiProcesses.quitAllLoop, hq2]
        rw [hred]
        exact ih hmem2 hne s hs hc
      · have hred : BrewPiProcesses.quitAllLoop w m (q :: rest) =
            (Event.invokeQuit q.pid :: BrewPiProcess.quit w q) ++
              BrewPiProcesses.quitAllLoop w m rest := by
          simp [BrewPiProcesses.quitAllLoop, hq2]
        rw [hred]
        exact List.mem_append_right _ (ih hmem2 hne s hs hc)

/-- Helper: a permission denial on a targeted record is reported on
stderr by the kill loop, provided the loop reaches every record. -/
theorem killAllLoop_reports (w : World) (m : Nat) (p : BrewPiProcess) :
    ∀ l : List BrewPiProcess,
      (∀ q ∈ l, ¬ q.pid = some m → ¬ w.killResult q.pid = KillResult.noSuchProcess) →
      p ∈ l → ¬ p.pid = some m → w.killResult p.pid = KillResult.accessDenied →
      Event.printErr (PrintLine.cannotKillAccessDenied p.pid) ∈
        (BrewPiProcesses.killAllLoop w m l).1 := by
  intro l
  induction l with
  | nil => intro _ hmem; cases hmem
  | cons q rest ih =>
    intro hk hmem hne hd
    rcases List.mem_cons.mp hmem with rfl | hmem2
    · have hkill : BrewPiProcess.kill w p =
          Except.ok [Event.printErr (PrintLine.cannotKillAccessDenied p.pid),
                     Event.printErr PrintLine.cannotKillSameUser] := by
        unfold BrewPiProcess.kill; rw [hd]
      rw [killAllLoop_cons_ok w m p rest _ hne hkill]
      simp
    · have hkrest := fun r hr hr2 => hk r (List.mem_cons_of_mem q hr) hr2
      by_cases hq2 : q.pid = some m
      · rw [killAllLoop_cons_skip w m q rest hq2]
        exact ih hkrest hmem2 hne hd
      · cases hkr : w.killResult q.pid with
        | noSuchProcess => exact absurd hkr (hk q (List.mem_cons_self q rest) hq2)
        | success =>
          have hkill : BrewPiProcess.kill w q =
              Except.ok [Event.sigkill q.pid, Event.printOut (PrintLine.sigkillSent q.pid)] := by
            unfold BrewPiProcess.kill; rw [hkr]
          rw [killAllLoop_cons_ok w m q rest _ hq2 hkill]
          exact List.mem_cons_of_mem _ (List.mem_append_right _ (ih hkrest hmem2 hne hd))
        | accessDenied =>
          have hkill : BrewPiProcess.kill w q =
              Except.ok [Event.printErr (PrintLine.cannotKillAccessDenied q.pid),
                         Event.printErr PrintLine.cannotKillSameUser] := by
            unfold BrewPiProcess.kill; rw [hkr]
          rw [killAllLoop_cons_ok w m q rest _ hq2 hkill]
          exact List.mem_cons_of_mem _ (List.mem_append_right _ (ih hkrest hmem2 hne hd))

/-- Claim C2 (amended): during `quitAll` every connection failure is
caught and reported and the batch continues to completion (every
non-self record is invoked); during `killAll`, provided no targeted pid
has already exited, the batch completes without an escaping exception,
every non-self record is invoked, and permission denials are caught and
reported per record.  A targeted pid that has already exited instead
raises an uncaught no-such-process error that aborts the batch, see
`killAll_noSuchProcess_fatal`. -/
theorem bulk_failures_handled (w : World) (env : Env) (st : St)
    (hk : ∀ p ∈ BrewPiProcesses.updateList env, ¬ p.pid = some env.myProc.pid →
            ¬ w.killResult p.pid = KillResult.noSuchProcess) :
    invokedQuitPids (BrewPiProcesses.quitAll w env st).2 = nonSelfPids env
    ∧ (∀ p ∈ BrewPiProcesses.updateList env, ¬ p.pid = some env.myProc.pid →
         ∀ s, p.sock = some s → w.connectOk s = false →
           Event.printOut (PrintLine.quitNotSent p.pid) ∈ (BrewPiProcesses.quitAll w env st).2)
    ∧ (BrewPiProcesses.killAll w env st).2.2 = none
    ∧ invokedKillPids (BrewPiProcesses.killAll w env st).2.1 = nonSelfPids env
    ∧ (∀ p ∈ BrewPiProcesses.updateList env, ¬ p.pid = some env.myProc.pid →
         w.killResult p.pid = KillResult.accessDenied →
           Event.printErr (PrintLine.cannotKillAccessDenied p.pid) ∈
             (BrewPiProcesses.killAll w env st).2.1) := by
  obtain ⟨h1, h2⟩ := killAllLoop_ok w env.myProc.pid (BrewPiProcesses.updateList env) hk
  refine ⟨quitAllLoop_pids w env.myProc.pid (BrewPiProcesses.updateList env), ?_, h1, h2, ?_⟩
  · intro p hp hne s hs hc
    exact quitAllLoop_reports w env.myProc.pid p (BrewPiProcesses.updateList env) hp hne s hs hc
  · intro p hp hne hd
    exact killAllLoop_reports w env.myProc.pid p (BrewPiProcesses.updateList env) hk hp hne hd

/-- Counterexample to claim C2 as stated: in the concrete world `w0`
the pid 100 has already exited when `killAll` signals it; the
no-such-process failure is not caught — it escapes `killAll` — and the
batch does not continue: the other enumerated record (pid 200, not the
caller) is never invoked. -/
theorem killAll_noSuchProcess_fatal :
    (BrewPiProcesses.killAll w0 env0 []).2.2 = some PyError.noSuchProcess
    ∧ ¬ Event.invokeKill (some 200) ∈ (BrewPiProcesses.killAll w0 env0 []).2.1
    ∧ (BrewPiProcesses.parseProcess env0 procB).pid = some 200
    ∧ BrewPiProcesses.parseProcess env0 procB ∈ BrewPiProcesses.updateList env0
    ∧ ¬ (BrewPiProcesses.parseProcess env0 procB).pid = some env0.myProc.pid := by
  decide

/-- Witness for claim C2 (amended) in the concrete world `w1`, where
pid 200 is permission-denied and every connect fails: both batches
still run to completion over all non-self records. -/
theorem bulk_failures_handled_witness :
    (∀ p ∈ BrewPiProcesses.updateList env0, ¬ p.pid = some env0.myProc.pid →
       ¬ w1.killResult p.pid = KillResult.noSuchProcess)
    ∧ (BrewPiProcesses.killAll w1 env0 []).2.2 = none
    ∧ invokedKillPids (BrewPiProcesses.killAll w1 env0 []).2.1 = nonSelfPids env0
    ∧ invokedQuitPids (BrewPiProcesses.quitAll w1 env0 []).2 = nonSelfPids env0 :=
  ⟨by decide, (bulk_failures_handled w1 env0 [] (by decide)).2.2.1,
   (bulk_failures_handled w1 env0 [] (by decide)).2.2.2.1,
   (bulk_failures_handled w1 env0 [] (by decide)).1⟩

/-- Claim C3 (amended): `quitAll` and `killAll` refresh the stored list
and then invoke their per-record operation only on freshly enumerated
records whose pid differs from the own pid of the caller — the caller
is never targeted, even when enumerated and even when the kill batch
aborts.  `quitAll` always invokes `quit` on exactly the non-self
records; `killAll` invokes `kill` on exactly the non-self records
provided no targeted pid has already exited (otherwise it aborts early,
see `killAll_abort_skips_remaining`). -/
theorem bulk_targets_exact (w : World) (env : Env) (st : St) :
    (BrewPiProcesses.quitAll w env st).1 = BrewPiProcesses.updateList env
    ∧ (BrewPiProcesses.killAll w env st).1 = BrewPiProcesses.updateList env
    ∧ invokedQuitPids (BrewPiProcesses.quitAll w env st).2 = nonSelfPids env
    ∧ ¬ some env.myProc.pid ∈ invokedQuitPids (BrewPiProcesses.quitAll w env st).2
    ∧ ¬ some env.myProc.pid ∈ invokedKillPids (BrewPiProcesses.killAll w env st).2.1
    ∧ ((∀ p ∈ BrewPiProcesses.updateList env, ¬ p.pid = some env.myProc.pid →
          ¬ w.killResult p.pid = KillResult.noSuchProcess) →
        invokedKillPids (BrewPiProcesses.killAll w env st).2.1 = nonSelfPids env) := by
  refine ⟨rfl, rfl,
    quitAllLoop_pids w env.myProc.pid (BrewPiProcesses.updateList env),
    quitAllLoop_no_self w env.myProc.pid (BrewPiProcesses.updateList env),
    killAllLoop_no_self w env.myProc.pid (BrewPiProcesses.updateList env),
    fun hk => (killAllLoop_ok w env.myProc.pid (BrewPiProcesses.updateList env) hk).2⟩

/-- Counterexample to claim C3 as stated: in the concrete world `w0`
the kill batch aborts on pid 100, so `kill` is invoked on pid 100 only,
not on the full set of stored non-self records (pids 100 and 200). -/
theorem killAll_abort_skips_remaining :
    invokedKillPids (BrewPiProcesses.killAll w0 env0 []).2.1 = [some 100]
    ∧ nonSelfPids env0 = [some 100, some 200] := by
  decide

/-- Witness for claim C3 (amended) in the concrete world `w1` and the
environment `env0`. -/
theorem bulk_targets_exact_witness :
    (BrewPiProcesses.quitAll w1 env0 []).1 = BrewPiProcesses.updateList env0
    ∧ ¬ some env0.myProc.pid ∈ invokedQuitPids (BrewPiProcesses.quitAll w1 env0 []).2
    ∧ ¬ some env0.myProc.pid ∈ invokedKillPids (BrewPiProcesses.killAll w1 env0 []).2.1
    ∧ (∀ p ∈ BrewPiProcesses.updateList env0, ¬ p.pid = some env0.myProc.pid →
        ¬ w1.killResult p.pid = KillResult.noSuchProcess)
    ∧ invokedKillPids (BrewPiProcesses.killAll w1 env0 []).2.1 = nonSelfPids env0 :=
  ⟨(bulk_targets_exact w1 env0 []).1, (bulk_targets_exact w1 env0 []).2.2.2.1,
   (bulk_targets_exact w1 env0 []).2.2.2.2.1, by decide,
   (bulk_targets_exact w1 env0 []).2.2.2.2.2 (by decide)⟩
